import Mathlib

/-!
# PseudoLang interpreter: a shallow embedding for specification checking

This file embeds the core of the PseudoLang (PSL) tree-walking interpreter
(`src/interpreter.rs`, `src/lexer.rs`) in Lean 4 and proves or refutes the
frozen claims about it.

Modelling conventions (stated once, used throughout):

* Rust `i64` is modelled as `Int`; the bounds `i64::MIN`/`i64::MAX` appear as
  the explicit constants `i64Min`/`i64Max` and wrap-free checks are written
  out exactly as the source writes them.  Rust integer division `/` and
  remainder `%` truncate toward zero, so they are rendered with `Int.tdiv`
  and `Int.tmod` (Lean's `/` on `Int` is euclidean and would be wrong).
* Rust `f64` values that the interpreter manipulates are finite (they arise
  from literals and arithmetic on finite values); every finite `f64` is a
  rational number, so `Value::Float(f64)` is modelled as `Value.Float (q : ℚ)`
  carrying that rational.  IEEE rounding of `f64` ARITHMETIC is not
  modelled: the float payloads of arithmetic results act exactly on the
  carried rationals (no settled claim depends on those payloads).  The
  `i64 as f64` CAST inside the sort comparator IS load-bearing for C9 and
  is modelled exactly: `i64ToF64` performs round-to-nearest, ties-to-even,
  to 53 bits, which is the cast's documented semantics.
* Rust `String` is modelled as Lean `String` (and, in the lexer, as
  `List Char`).  The source indexes strings by bytes; the model indexes by
  characters, which agrees with the source on ASCII input.  All concrete
  programs used in theorems below are ASCII.
* `HashMap` is modelled as an association list where insertion replaces an
  existing binding (`setAssoc`); only insertion and lookup are used.
* The `Rc<RefCell<Environment>>` parent chain is modelled as an arena: a
  `Store` holds the list of frames ever created, and an environment is an
  index into it.  A child frame records its parent's index; in every store
  the interpreter builds, a parent index is smaller than its child's, and
  variable lookup walks that chain.
* A Rust panic (`unwrap` on `Err`, out-of-range slicing) is a distinguished
  outcome `.panic`, kept separate from the interpreter's `Err(String)`
  channel which is `.err`.
* Recursion through stored procedure bodies is bounded by explicit fuel
  (outcome `.timeout` when exhausted), standing in for the source's
  `CURRENT_STACK_DEPTH` guard; all claims are settled at fuels where the
  guard is irrelevant.
* Printing to the process stdout is out of scope (the spec scopes the core
  to the output string buffer); the buffer updates are modelled exactly.
* `evaluate_node` match arms for constructs no claim touches (loops, class
  declarations, `INPUT`, `IMPORT`, `EVAL`, indexed assignment, the built-in
  name arms of `ProcedureCall`) are omitted from the embedded `AstNode`; the
  built-in name dispatch that precedes the user-procedure path is kept as an
  explicit guard so the modelled fragment cannot silently diverge from the
  source on those names.
-/

/-- i64::MIN. -/
def i64Min : Int := -(2 ^ 63)

/-- i64::MAX. -/
def i64Max : Int := 2 ^ 63 - 1

/-- `Value` from src/interpreter.rs (line 44): runtime values.
`Float(f64)` carries the exact rational value of the finite float. -/
inductive Value where
  | Integer (n : Int)
  | Float (q : ℚ)
  | String (s : String)
  | Boolean (b : Bool)
  | List (elements : List Value)
  | Unit
  | Null
  | NaN

/-- `BinaryOperator` from src/parser.rs. -/
inductive BinaryOperator where
  | Add | Sub | Mul | Div | Mod
  | Eq | NotEq | Lt | LtEq | Gt | GtEq
  | And | Or
deriving DecidableEq

/-- Result channel of `evaluate_binary_op`: `Result<Value, String>`. -/
inductive BinResult where
  | ok (v : Value)
  | err (msg : String)

/-- `evaluate_binary_op` from src/interpreter.rs (lines 1668-1847), arm for
arm in source order.  Match arms in Lean, like in Rust, are tried top to
bottom, so the `NaN` arms shadow everything below them and the `Null` arms
shadow everything below those.  Float arithmetic acts on the carried
rationals (see header). -/
def evaluateBinaryOp (left : Value) (op : BinaryOperator) (right : Value) : BinResult :=
  match left, op, right with
  | .NaN, .Eq, _ => .ok (.Boolean false)
  | _, .Eq, .NaN => .ok (.Boolean false)
  | .NaN, .NotEq, _ => .ok (.Boolean true)
  | _, .NotEq, .NaN => .ok (.Boolean true)
  | .NaN, _, _ => .ok .NaN
  | _, _, .NaN => .ok .NaN

  | .Null, .Eq, .Null => .ok (.Boolean true)
  | .Null, .NotEq, .Null => .ok (.Boolean false)
  | .Null, _, _ => .ok (.Boolean false)
  | _, _, .Null => .ok (.Boolean false)

  | .Integer a, .Add, .Integer b =>
      if (a > 0 ∧ b > i64Max - a) ∨ (a < 0 ∧ b < i64Min - a) then
        .ok (.Float ((a : ℚ) + (b : ℚ)))
      else
        .ok (.Integer (a + b))
  | .Integer a, .Sub, .Integer b =>
      if (b > 0 ∧ a < i64Min + b) ∨ (b < 0 ∧ a > i64Max + b) then
        .ok (.Float ((a : ℚ) - (b : ℚ)))
      else
        .ok (.Integer (a - b))
  | .Integer a, .Mul, .Integer b =>
      if a ≠ 0 ∧ b ≠ 0 then
        if (a > 0 ∧ b > 0 ∧ a > i64Max.tdiv b)
            ∨ (a > 0 ∧ b < 0 ∧ b < i64Min.tdiv a)
            ∨ (a < 0 ∧ b > 0 ∧ a < i64Min.tdiv b)
            ∨ (a < 0 ∧ b < 0 ∧ a < i64Max.tdiv b) then
          .ok (.Float ((a : ℚ) * (b : ℚ)))
        else
          .ok (.Integer (a * b))
      else
        .ok (.Integer 0)
  | .Integer a, .Div, .Integer b =>
      if b = 0 then .err "Division by zero" else .ok (.Integer (a.tdiv b))
  | .Integer a, .Mod, .Integer b =>
      if b = 0 then .err "Modulo by zero" else .ok (.Integer (a.tmod b))

  | .Integer a, .Eq, .Integer b => .ok (.Boolean (a == b))
  | .Integer a, .NotEq, .Integer b => .ok (.Boolean (a != b))
  | .Integer a, .Lt, .Integer b => .ok (.Boolean (decide (a < b)))
  | .Integer a, .LtEq, .Integer b => .ok (.Boolean (decide (a ≤ b)))
  | .Integer a, .Gt, .Integer b => .ok (.Boolean (decide (a > b)))
  | .Integer a, .GtEq, .Integer b => .ok (.Boolean (decide (a ≥ b)))

  | .Boolean a, .And, .Boolean b => .ok (.Boolean (a && b))
  | .Boolean a, .Or, .Boolean b => .ok (.Boolean (a || b))

  | .String a, .Eq, .String b => .ok (.Boolean (a == b))
  | .String a, .NotEq, .String b => .ok (.Boolean (a != b))
  | .String a, .Lt, .String b => .ok (.Boolean (decide (a < b)))
  | .String a, .LtEq, .String b => .ok (.Boolean (decide (a ≤ b)))
  | .String a, .Gt, .String b => .ok (.Boolean (decide (b < a)))
  | .String a, .GtEq, .String b => .ok (.Boolean (decide (b ≤ a)))

  | .String a, .Add, .String b => .ok (.String (a ++ b))

  | .Float a, .Add, .Float b => .ok (.Float (a + b))
  | .Float a, .Sub, .Float b => .ok (.Float (a - b))
  | .Float a, .Mul, .Float b => .ok (.Float (a * b))
  | .Float a, .Div, .Float b =>
      if b = 0 then .err "Division by zero" else .ok (.Float (a / b))

  | .Integer a, .Add, .Float b => .ok (.Float ((a : ℚ) + b))
  | .Float a, .Add, .Integer b => .ok (.Float (a + (b : ℚ)))
  | .Integer a, .Sub, .Float b => .ok (.Float ((a : ℚ) - b))
  | .Float a, .Sub, .Integer b => .ok (.Float (a - (b : ℚ)))
  | .Integer a, .Mul, .Float b => .ok (.Float ((a : ℚ) * b))
  | .Float a, .Mul, .Integer b => .ok (.Float (a * (b : ℚ)))
  | .Integer a, .Div, .Float b =>
      if b = 0 then .err "Division by zero" else .ok (.Float ((a : ℚ) / b))
  | .Float a, .Div, .Integer b =>
      if b = 0 then .err "Division by zero" else .ok (.Float (a / (b : ℚ)))

  | .Boolean a, .Eq, .Boolean b => .ok (.Boolean (a == b))
  | .Boolean a, .NotEq, .Boolean b => .ok (.Boolean (a != b))

  | .List a, .Add, .List b => .ok (.List (a ++ b))

  | .Float a, .Eq, .Float b => .ok (.Boolean (a == b))
  | .Float a, .NotEq, .Float b => .ok (.Boolean (a != b))
  | .Float a, .Lt, .Float b => .ok (.Boolean (decide (a < b)))
  | .Float a, .LtEq, .Float b => .ok (.Boolean (decide (a ≤ b)))
  | .Float a, .Gt, .Float b => .ok (.Boolean (decide (a > b)))
  | .Float a, .GtEq, .Float b => .ok (.Boolean (decide (a ≥ b)))

  | .Integer a, .Eq, .Float b => .ok (.Boolean ((a : ℚ) == b))
  | .Float a, .Eq, .Integer b => .ok (.Boolean (a == (b : ℚ)))
  | .Integer a, .NotEq, .Float b => .ok (.Boolean ((a : ℚ) != b))
  | .Float a, .NotEq, .Integer b => .ok (.Boolean (a != (b : ℚ)))
  | .Integer a, .Lt, .Float b => .ok (.Boolean (decide ((a : ℚ) < b)))
  | .Float a, .Lt, .Integer b => .ok (.Boolean (decide (a < (b : ℚ))))
  | .Integer a, .LtEq, .Float b => .ok (.Boolean (decide ((a : ℚ) ≤ b)))
  | .Float a, .LtEq, .Integer b => .ok (.Boolean (decide (a ≤ (b : ℚ))))
  | .Integer a, .Gt, .Float b => .ok (.Boolean (decide ((a : ℚ) > b)))
  | .Float a, .Gt, .Integer b => .ok (.Boolean (decide (a > (b : ℚ))))
  | .Integer a, .GtEq, .Float b => .ok (.Boolean (decide ((a : ℚ) ≥ b)))
  | .Float a, .GtEq, .Integer b => .ok (.Boolean (decide (a ≥ (b : ℚ))))

  | _, _, _ => .err "Invalid operation"

mutual

/-- `value_to_string` from src/interpreter.rs (lines 1858-1872).
`Integer` uses decimal rendering like `i64::to_string`; `Float` rendering is
modelled up to the rational abstraction (no claim depends on it); booleans
render `"true"`/`"false"` (`bool::to_string`); note the source renders `NaN`
as `"NAN"`.  The list arm's element-wise map is split into a mutual helper
for structural recursion. -/
def valueToString : Value → String
  | .Integer n => toString n
  | .Float q => toString q
  | .String s => s
  | .Boolean b => if b then "true" else "false"
  | .List elements => "[" ++ String.intercalate ", " (valueToStringList elements) ++ "]"
  | .Unit => ""
  | .Null => "NULL"
  | .NaN => "NAN"

/-- `elements.iter().map(value_to_string)` in the list arm of `value_to_string`. -/
def valueToStringList : List Value → List String
  | [] => []
  | v :: rest => valueToString v :: valueToStringList rest

end

/-- Floor base-2 logarithm, structurally fueled so that it reduces in the
kernel; agrees with `Nat.log2` for every `n < 2^64` (64 halvings reach 1). -/
def natLog2Aux : Nat → Nat → Nat
  | 0, _ => 0
  | fuel + 1, n => if n ≤ 1 then 0 else natLog2Aux fuel (n / 2) + 1

/-- Round a natural number below 2^64 to the nearest `f64`-representable
value (53-bit precision), ties to even — the value semantics of Rust's
`as f64` cast on the magnitude.  Exact at or below 2^53. -/
def roundNatToF64 (n : Nat) : Nat :=
  if n ≤ 2 ^ 53 then n
  else
    let e := natLog2Aux 64 n
    let ulp := 2 ^ (e - 52)
    let q := n / ulp
    let r := n % ulp
    if r < ulp / 2 then q * ulp
    else if ulp / 2 < r then (q + 1) * ulp
    else if q % 2 = 0 then q * ulp else (q + 1) * ulp

/-- Exact rational value of Rust's `a as f64` on an `i64` (round to
nearest, ties to even; symmetric in sign; never overflows for |a| < 2^63). -/
def i64ToF64 (a : Int) : ℚ :=
  if 0 ≤ a then (roundNatToF64 a.toNat : ℚ) else -(roundNatToF64 a.natAbs : ℚ)

/-- `i64::cmp` in the sort comparator: `a_int.cmp(b_int)`. -/
def cmpInt (a b : Int) : Ordering :=
  if a < b then .lt else if b < a then .gt else .eq

/-- `f64::partial_cmp(..).unwrap_or(Equal)` on the rational model of finite
floats; for rationals the comparison is total, so `unwrap_or` never fires. -/
def cmpRat (a b : ℚ) : Ordering :=
  if a < b then .lt else if b < a then .gt else .eq

/-- `String::cmp`: lexicographic; Lean's `String` order is lexicographic by
character, which agrees with Rust's byte order on ASCII. -/
def cmpString (a b : String) : Ordering :=
  if a < b then .lt else if b < a then .gt else .eq

/-- The comparator closure passed to `sort_by` in the `AstNode::Sort` arm of
`evaluate_node`, src/interpreter.rs lines 1604-1617: integers numerically,
floats numerically, mixed integer/float via the rounding `as f64` cast
(`i64ToF64`), strings lexicographically, everything else `Equal`. -/
def cmpValue : Value → Value → Ordering
  | .Integer a, .Integer b => cmpInt a b
  | .Float a, .Float b => cmpRat a b
  | .Integer a, .Float b => cmpRat (i64ToF64 a) b
  | .Float a, .Integer b => cmpRat a (i64ToF64 b)
  | .String a, .String b => cmpString a b
  | _, _ => .eq

/-- One step of the stable-sort model of `slice::sort_by`: insert `x` into an
already sorted list, after every element not greater than it (stability) and
before the first greater one. -/
def orderedInsertCmp (x : Value) : List Value → List Value
  | [] => [x]
  | y :: ys => if cmpValue x y = .gt then y :: orderedInsertCmp x ys else x :: y :: ys

/-- Model of `elements.sort_by(comparator)` in the `AstNode::Sort` arm:
`slice::sort_by` is specified as a stable sort, modelled here as stable
insertion sort (any two stable sorts agree on comparators that are total
preorders; for this comparator idempotence and stability are proved below
directly from this definition). -/
def sortValues : List Value → List Value
  | [] => []
  | x :: xs => orderedInsertCmp x (sortValues xs)

/-- `orderedInsertCmp` on values tagged with their original positions; the
comparator reads only the value component.  Used to state stability. -/
def orderedInsertTagged (p : Nat × Value) : List (Nat × Value) → List (Nat × Value)
  | [] => [p]
  | q :: qs => if cmpValue p.2 q.2 = .gt then q :: orderedInsertTagged p qs else p :: q :: qs

/-- `sortValues` on position-tagged values. -/
def sortTagged : List (Nat × Value) → List (Nat × Value)
  | [] => []
  | p :: ps => orderedInsertTagged p (sortTagged ps)

/-- The comparator is transitive (in the not-greater sense) on the elements
of `l`.  With the comparator's built-in antisymmetry this makes it a total
preorder on `l` — the condition under which `slice::sort_by` guarantees a
stable sorted result, determined uniquely, so that the insertion-sort model
`sortValues` coincides with the program.  It fails on mixed-type lists
(`1` = `true`, `true` = `2`, yet `1` < `2`), where the source's `sort_by`
leaves the order unspecified. -/
def comparatorTransitiveOn (l : List Value) : Prop :=
  ∀ x ∈ l, ∀ y ∈ l, ∀ z ∈ l,
    cmpValue x y ≠ .gt → cmpValue y z ≠ .gt → cmpValue x z ≠ .gt

instance (l : List Value) : Decidable (comparatorTransitiveOn l) := by
  unfold comparatorTransitiveOn
  infer_instance

/-- Outcome of evaluating a node: `Ok(Value)`, `Err(String)`, a Rust panic,
or fuel exhaustion (the stand-in for the recursion-depth guard). -/
inductive EvalOut where
  | ok (v : Value)
  | err (msg : String)
  | panic
  | timeout

/-- The slicing part of the `AstNode::Substring` arm, src/interpreter.rs
lines 1345-1365, reached when the subject is a `String` and both indices are
`Integer`s.  The bounds check is the source's
`start_idx >= 0 && end_idx >= start_idx && (end_idx as usize) <= s.len()`;
the slice itself is Rust's inclusive `s[start_idx..=end_idx]`, which panics
when `end_idx + 1 > s.len()` — the check lets `end_idx == s.len()` through.
Character indexing here = byte indexing in the source on ASCII strings. -/
def substringSlice (s : String) (start stop : Int) : EvalOut :=
  let startIdx := start - 1
  let endIdx := stop - 1
  if startIdx ≥ 0 ∧ endIdx ≥ startIdx ∧ endIdx.toNat ≤ s.length then
    if endIdx.toNat + 1 ≤ s.length then
      .ok (.String (String.mk ((s.toList.drop startIdx.toNat).take (endIdx.toNat + 1 - startIdx.toNat))))
    else
      .panic
  else
    .err "Invalid substring indices"

/-- The fragment of `AstNode` (src/parser.rs, lines 8-70) that the claims
exercise.  Constructors no claim touches (loops, `ForEach`, `ClassDecl`,
`Input`, `Import`, `Eval`, list mutation nodes, indexed assignment, unary
operations, raw/multiline strings) are omitted; each kept constructor's
evaluation rule is translated arm for arm below. -/
inductive AstNode where
  | Integer (n : Int)
  | Float (q : ℚ)
  | String (s : String)
  | Boolean (b : Bool)
  | Null
  | NaN
  | List (elements : List AstNode)
  | Identifier (name : String)
  | Assignment (target value : AstNode)
  | BinaryOp (left : AstNode) (op : BinaryOperator) (right : AstNode)
  | If (condition thenBranch : AstNode) (elseBranch : Option AstNode)
  | Display (expr : Option AstNode)
  | DisplayInline (expr : AstNode)
  | FormattedString (template : String) (expressions : List AstNode)
  | ProcedureDecl (name : String) (params : List String) (body : AstNode)
  | ProcedureCall (name : String) (args : List AstNode)
  | Return (expr : AstNode)
  | Sort (expr : AstNode)
  | Length (expr : AstNode)
  | Substring (string start stop : AstNode)
  | TryCatch (tryBlock : AstNode) (errorVar : Option String) (catchBlock : AstNode)
  | Block (statements : List AstNode)
  | Program (statements : List AstNode)

/-- `matches!(&**value, AstNode::FormattedString(_, _))` in the assignment
arm (src/interpreter.rs line 242): a syntactic check on the right-hand-side
node. -/
def AstNode.isFormattedString : AstNode → Bool
  | .FormattedString _ _ => true
  | _ => false

/-- Association-list insert modelling `HashMap::insert`: replaces an
existing binding for the key, else appends. -/
def setAssoc {α : Type} (l : List (String × α)) (key : String) (a : α) : List (String × α) :=
  match l with
  | [] => [(key, a)]
  | (k, b) :: rest => if k = key then (key, a) :: rest else (k, b) :: setAssoc rest key a

/-- Association-list lookup modelling `HashMap::get`. -/
def getAssoc {α : Type} (l : List (String × α)) (key : String) : Option α :=
  match l with
  | [] => none
  | (k, a) :: rest => if k = key then some a else getAssoc rest key

/-- `Environment` from src/interpreter.rs (lines 56-65), one scope frame.
The `classes` table and the source-tracker/debug plumbing are dropped (no
modelled construct reads them); `parent` is an arena index instead of an
`Rc` pointer, and the source's `variables` field is named `vars` (Lean
reserves the word). -/
structure Frame where
  vars : List (String × Value)
  procedures : List (String × (List String × AstNode))
  output : String
  returnValue : Option Value
  parent : Option Nat

/-- `Environment::new` (lines 67-79): every table empty, no parent. -/
def emptyFrame : Frame :=
  { vars := [], procedures := [], output := "", returnValue := none, parent := none }

/-- The arena of every environment created so far; an environment value in
the source corresponds to an index into `frames`. -/
structure Store where
  frames : List Frame

/-- The store at program start (`run`, line 158): just the root frame. -/
def initialStore : Store := ⟨[emptyFrame]⟩

/-- Read the frame at an index (total, with a default that reachable
executions never use: the interpreter only creates valid indices). -/
def Store.frameAt (s : Store) (i : Nat) : Frame :=
  s.frames.getD i emptyFrame

/-- Replace the element at an index, point-wise. -/
def listModify {α : Type} (f : α → α) : Nat → List α → List α
  | _, [] => []
  | 0, x :: xs => f x :: xs
  | n + 1, x :: xs => x :: listModify f n xs

/-- Mutate one frame in place (the model of writing through the
`RefCell`). -/
def Store.modifyFrame (s : Store) (i : Nat) (f : Frame → Frame) : Store :=
  ⟨listModify f i s.frames⟩

/-- `Environment::new_with_parent` (lines 81-92): fresh variables and
output, procedure table snapshotted from the parent, parent link set.
Returns the updated store and the new frame's index. -/
def Store.newWithParent (s : Store) (parent : Nat) : Store × Nat :=
  (⟨s.frames ++ [{ vars := [],
                   procedures := (s.frameAt parent).procedures,
                   output := "",
                   returnValue := none,
                   parent := some parent }]⟩,
   s.frames.length)

/-- `Environment::get` (lines 94-103): search the chain innermost to
outermost.  The walk is fueled by the chain length; every store the
interpreter builds has parent indices strictly below the child's, so fuel
`s.frames.length` always suffices. -/
def lookupVar (s : Store) : Nat → Nat → String → Option Value
  | 0, _, _ => none
  | fuel + 1, idx, name =>
    match getAssoc (s.frameAt idx).vars name with
    | some v => some v
    | none =>
      match (s.frameAt idx).parent with
      | some p => lookupVar s fuel p name
      | none => none

/-- `Environment::set` (lines 105-107): write into the innermost scope
unconditionally. -/
def Store.setVar (s : Store) (idx : Nat) (name : String) (v : Value) : Store :=
  s.modifyFrame idx (fun f => { f with vars := setAssoc f.vars name v })

/-- `Environment::get_procedure` (lines 109-111): own table only (children
snapshot the parent's table at creation). -/
def Store.getProcedure (s : Store) (idx : Nat) (name : String) :
    Option (List String × AstNode) :=
  getAssoc (s.frameAt idx).procedures name

/-- `output.push_str(..)` on the frame at `idx`. -/
def Store.appendOutput (s : Store) (idx : Nat) (text : String) : Store :=
  s.modifyFrame idx (fun f => { f with output := f.output ++ text })

/-- `return_value = Some(..)` on the frame at `idx`. -/
def Store.setReturn (s : Store) (idx : Nat) (v : Value) : Store :=
  s.modifyFrame idx (fun f => { f with returnValue := some v })

/-- The 46 names dispatched by the built-in arms of the `ProcedureCall`
match (src/interpreter.rs lines 422-1199) before the user-procedure default
arm.  The built-in bodies are not modelled; the guard keeps the model's
`ProcedureCall` faithful to the source for every other name. -/
def builtinNames : List String :=
  ["SLEEP", "CONCAT", "SUBSTRING", "LENGTH", "REMOVE", "APPEND", "INSERT",
   "ABS", "CEIL", "FLOOR", "POW", "SQRT", "SIN", "COS", "TAN", "ASIN",
   "ACOS", "ATAN", "EXP", "LOG", "LOGTEN", "LOGTWO", "GCD", "FACTORIAL",
   "DEGREES", "RADIANS", "HYPOT", "MIN", "MAX", "ROUND", "TIME",
   "MILLITIME", "TIMESTAMP", "TIMEZONE", "TIMEZONES", "EXIT", "TRIM",
   "REPLACE", "UPPERCASE", "LOWERCASE", "CONTAINS", "FIND", "SPLIT",
   "RANGE", "STARTSWITH", "ENDSWITH"]

/-- Outcome of evaluating a list of expressions to values. -/
inductive ValuesOut where
  | ok (vs : List Value)
  | err (msg : String)
  | panic
  | timeout

/-- Rust `str::split("{}")` on the formatted-string template: split on each
(leftmost-first, non-overlapping) occurrence of the two-character pattern
`\x7b\x7d`, yielding one piece more than there are occurrences. -/
def splitOnBracePair : List Char → String → List String
  | [], acc => [acc]
  | '{' :: '}' :: t, acc => acc :: splitOnBracePair t ""
  | c :: t, acc => splitOnBracePair t (acc.push c)

mutual

/-- `evaluate_node` from src/interpreter.rs (lines 181-1666), restricted to
the modelled constructors, arm for arm in source order within each arm.
All recursion is metered by `fuel` (see header); every recursive call
decrements it, so exhaustion (`.timeout`) plays the role of the source's
recursion-depth guard. -/
def evaluateNode : Nat → AstNode → Nat → Store → Store × EvalOut
  | 0, _, _, s => (s, .timeout)
  | fuel + 1, node, env, s =>
    match node with
    | .Program statements => evalStatements fuel statements env s .Unit
    | .Block statements => evalStatements fuel statements env s .Unit
    | .Integer n => (s, .ok (.Integer n))
    | .Float q => (s, .ok (.Float q))
    | .String str => (s, .ok (.String str))
    | .Boolean b => (s, .ok (.Boolean b))
    | .Null => (s, .ok .Null)
    | .NaN => (s, .ok .NaN)
    | .List elements =>
      match evalValueList fuel elements env s with
      | (s', .ok vs) => (s', .ok (.List vs))
      | (s', .err e) => (s', .err e)
      | (s', .panic) => (s', .panic)
      | (s', .timeout) => (s', .timeout)
    | .Identifier name =>
      match lookupVar s s.frames.length env name with
      | none => (s, .err ("Undefined variable: " ++ name))
      | some v => (s, .ok v)
    | .Assignment target value =>
      match evaluateNode fuel value env s with
      | (s', .ok val) =>
        match target with
        | .Identifier name =>
          let s'' :=
            if value.isFormattedString then
              s'.appendOutput env (valueToString val ++ "\n")
            else s'
          (s''.setVar env name val, .ok val)
        | _ => (s', .err "Invalid assignment target")
      | other => other
    | .BinaryOp leftExpr op rightExpr =>
      match op with
      | .And =>
        match evaluateNode fuel leftExpr env s with
        | (s', .ok (.Boolean false)) => (s', .ok (.Boolean false))
        | (s', .ok _) =>
          match evaluateNode fuel rightExpr env s' with
          | (s'', .ok (.Boolean rightBool)) => (s'', .ok (.Boolean rightBool))
          | (s'', .ok _) => (s'', .err "Right operand of AND must be boolean")
          | other => other
        | other => other
      | .Or =>
        match evaluateNode fuel leftExpr env s with
        | (s', .ok (.Boolean true)) => (s', .ok (.Boolean true))
        | (s', .ok _) =>
          match evaluateNode fuel rightExpr env s' with
          | (s'', .ok (.Boolean rightBool)) => (s'', .ok (.Boolean rightBool))
          | (s'', .ok _) => (s'', .err "Right operand of OR must be boolean")
          | other => other
        | other => other
      | _ =>
        match evaluateNode fuel leftExpr env s with
        | (s', .ok leftVal) =>
          match evaluateNode fuel rightExpr env s' with
          | (s'', .ok rightVal) =>
            match evaluateBinaryOp leftVal op rightVal with
            | .ok v => (s'', .ok v)
            | .err e => (s'', .err e)
          | other => other
        | other => other
    | .If condition thenBranch elseBranch =>
      match evaluateNode fuel condition env s with
      | (s', .ok (.Boolean true)) => evaluateNode fuel thenBranch env s'
      | (s', .ok (.Boolean false)) =>
        match elseBranch with
        | some elseNode => evaluateNode fuel elseNode env s'
        | none => (s', .ok .Unit)
      | (s', .ok _) => (s', .err "Condition must be a boolean")
      | other => other
    | .Display expr =>
      match expr with
      | some e =>
        match evaluateNode fuel e env s with
        | (s', .ok result) =>
          (s'.appendOutput env (valueToString result ++ "\n"), .ok result)
        | other => other
      | none => (s.appendOutput env "\n", .ok .Unit)
    | .DisplayInline expr =>
      match evaluateNode fuel expr env s with
      | (s', .ok v) => (s'.appendOutput env (valueToString v), .ok .Unit)
      | other => other
    | .FormattedString template expressions =>
      match splitOnBracePair template.toList "" with
      | [] => (s, .ok (.String ""))
      | firstPart :: parts => evalFormatParts fuel parts expressions env s firstPart
    | .ProcedureDecl name params body =>
      (s.modifyFrame env
        (fun f => { f with procedures := setAssoc f.procedures name (params, body) }),
       .ok .Unit)
    | .ProcedureCall name args =>
      if builtinNames.contains name then
        (s, .err ("unmodelled builtin: " ++ name))
      else
        match s.getProcedure env name with
        | none => (s, .err ("Procedure '" ++ name ++ "' not found"))
        | some (params, body) =>
          let (s₁, localEnv) := s.newWithParent env
          match evalBindings fuel (params.zip args) env localEnv s₁ with
          | (s₂, some failure) => (s₂, failure)
          | (s₂, none) =>
            match evaluateNode fuel body localEnv s₂ with
            | (s₃, .err e) =>
              if e = "Return" then
                let result := ((s₃.frameAt localEnv).returnValue).getD .Unit
                (s₃.appendOutput env (s₃.frameAt localEnv).output, .ok result)
              else
                (s₃, .err e)
            | (s₃, .ok val) =>
              let result :=
                match (s₃.frameAt localEnv).returnValue with
                | some returnValue => returnValue
                | none => val
              (s₃.appendOutput env (s₃.frameAt localEnv).output, .ok result)
            | (s₃, .panic) => (s₃, .panic)
            | (s₃, .timeout) => (s₃, .timeout)
    | .Return expr =>
      match evaluateNode fuel expr env s with
      | (s', .ok value) => (s'.setReturn env value, .err "Return")
      | other => other
    | .Sort listExpr =>
      match evaluateNode fuel listExpr env s with
      | (s', .ok (.List elements)) => (s', .ok (.List (sortValues elements)))
      | (s', .ok _) => (s', .err "SORT requires a list as an argument")
      | other => other
    | .Length listExpr =>
      match evaluateNode fuel listExpr env s with
      | (s', .ok (.List elements)) => (s', .ok (.Integer elements.length))
      | (s', .ok (.String str)) => (s', .ok (.Integer str.length))
      | (s', .ok _) => (s', .err "LENGTH requires a list or string argument")
      | other => other
    | .Substring stringExpr startExpr stopExpr =>
      match evaluateNode fuel stringExpr env s with
      | (s₁, .ok strVal) =>
        match evaluateNode fuel startExpr env s₁ with
        | (s₂, .ok startVal) =>
          match evaluateNode fuel stopExpr env s₂ with
          | (s₃, .ok stopVal) =>
            match strVal, startVal, stopVal with
            | .String str, .Integer a, .Integer b => (s₃, substringSlice str a b)
            | _, _, _ => (s₃, .err "Invalid substring arguments")
          | other => other
        | other => other
      | other => other
    | .TryCatch tryBlock errorVar catchBlock =>
      let (s₁, tryEnv) := s.newWithParent env
      match evaluateNode fuel tryBlock tryEnv s₁ with
      | (s₂, .ok result) =>
        (s₂.appendOutput env (s₂.frameAt tryEnv).output, .ok result)
      | (s₂, .err error) =>
        let s₃ := s₂.appendOutput env (s₂.frameAt tryEnv).output
        let (s₄, catchEnv) := s₃.newWithParent env
        let s₅ :=
          match errorVar with
          | some varName => s₄.setVar catchEnv varName (.String error)
          | none => s₄
        match evaluateNode fuel catchBlock catchEnv s₅ with
        | (s₆, .ok result) =>
          (s₆.appendOutput env (s₆.frameAt catchEnv).output, .ok result)
        | other => other
      | (s₂, .panic) => (s₂, .panic)
      | (s₂, .timeout) => (s₂, .timeout)
termination_by structural fuel => fuel

/-- The statement loop of the `Program`/`Block` arms: evaluate in order,
keep the last value, stop at the first failure (the Rust `?`). -/
def evalStatements : Nat → List AstNode → Nat → Store → Value → Store × EvalOut
  | 0, _, _, s, _ => (s, .timeout)
  | _ + 1, [], _, s, lastValue => (s, .ok lastValue)
  | fuel + 1, stmt :: rest, env, s, _ =>
    match evaluateNode fuel stmt env s with
    | (s', .ok v) => evalStatements fuel rest env s' v
    | other => other
termination_by structural fuel => fuel

/-- The element loop of the `AstNode::List` arm: evaluate each element,
collecting values. -/
def evalValueList : Nat → List AstNode → Nat → Store → Store × ValuesOut
  | 0, _, _, s => (s, .timeout)
  | _ + 1, [], _, s => (s, .ok [])
  | fuel + 1, elem :: rest, env, s =>
    match evaluateNode fuel elem env s with
    | (s', .ok v) =>
      match evalValueList fuel rest env s' with
      | (s'', .ok vs) => (s'', .ok (v :: vs))
      | other => other
    | (s', .err e) => (s', .err e)
    | (s', .panic) => (s', .panic)
    | (s', .timeout) => (s', .timeout)
termination_by structural fuel => fuel

/-- The parameter-binding loop of the user-procedure call:
`for (param, arg) in params.iter().zip(args)` — each argument is evaluated
in the CALLER's environment and bound in the callee's frame; an
arity mismatch is silently truncated by `zip`.  `none` means success. -/
def evalBindings : Nat → List (String × AstNode) → Nat → Nat → Store →
    Store × Option EvalOut
  | 0, _, _, _, s => (s, some .timeout)
  | _ + 1, [], _, _, s => (s, none)
  | fuel + 1, (param, arg) :: rest, callerEnv, localEnv, s =>
    match evaluateNode fuel arg callerEnv s with
    | (s', .ok v) =>
      evalBindings fuel rest callerEnv localEnv (s'.setVar localEnv param v)
    | (s', .err e) => (s', some (.err e))
    | (s', .panic) => (s', some .panic)
    | (s', .timeout) => (s', some .timeout)
termination_by structural fuel => fuel

/-- The placeholder loop of the `AstNode::FormattedString` arm
(src/interpreter.rs lines 1449-1467): for each later split part, evaluate
the next hole expression (when one remains), append its rendering and then
the part. -/
def evalFormatParts : Nat → List String → List AstNode → Nat → Store →
    String → Store × EvalOut
  | 0, _, _, _, s, _ => (s, .timeout)
  | _ + 1, [], _, _, s, acc => (s, .ok (.String acc))
  | fuel + 1, part :: rest, expressions, env, s, acc =>
    match expressions with
    | expr :: exprRest =>
      match evaluateNode fuel expr env s with
      | (s', .ok v) =>
        evalFormatParts fuel rest exprRest env s' (acc ++ valueToString v ++ part)
      | other => other
    | [] => evalFormatParts fuel rest [] env s (acc ++ part)
termination_by structural fuel => fuel

end

/-- Observable outcome of a whole program run. -/
inductive RunOut where
  | ok (output : String)
  | err (msg : String)
  | panic
  | timeout
deriving DecidableEq, Repr

/-- `run` from src/interpreter.rs (lines 157-168): evaluate the AST against
a fresh root environment and return the root frame's accumulated output
buffer (the observable console output). -/
def run (fuel : Nat) (ast : AstNode) : RunOut :=
  match evaluateNode fuel ast 0 initialStore with
  | (s, .ok _) => .ok (s.frameAt 0).output
  | (_, .err e) => .err e
  | (_, .panic) => .panic
  | (_, .timeout) => .timeout

/-- `Token` from src/lexer.rs (lines 1-89). -/
inductive Token where
  | Unknown
  | Identifier (s : String)
  | Assignment
  | Assign
  | Display (inline : Option Token)
  | DisplayInline
  | Input
  | Plus | Minus | Multiply | Divide | Modulo
  | Equal | NotEqual | GreaterThan | LessThan | GreaterThanOrEqual | LessThanOrEqual
  | And | Or | Not
  | If | Else | Repeat | RepeatUntil | Until | Times
  | ListCreate (ts : List Token)
  | ListAssign | ListAccess | ListInsert | ListAppend | ListRemove | ListLength | ForEach
  | Procedure | Return
  | Integer (n : Int)
  | Float (q : ℚ)
  | String (s : String)
  | RawString (s : String)
  | MultilineString (s : String)
  | FormattedString (template : String) (holes : List String)
  | Boolean (b : Bool)
  | Comment | CommentBlock
  | OpenParen | CloseParen | OpenBracket | CloseBracket | Comma
  | Indent | Dedent | Newline | OpenBrace | CloseBrace
  | Class | ToString | ToNum | For | Each | In | Substring | Concat | Import
  | True | False | Random | Sort | Try | Catch
  | Null | NaN

/-- Number of characters a skip-to-newline loop consumes (the `//` comment
loop in `next_token`, lines 154-159, and the `COMMENT` loop in `tokenize`,
lines 111-116, both consume up to and including the first newline); the
remaining input is `drop` of this count. -/
def skipLineCount : List Char → Nat
  | [] => 0
  | '\n' :: _ => 1
  | _ :: t => skipLineCount t + 1

/-- The digit/dot loop of the number arm (lines 305-318): collect digits and
at most one `.`; returns the collected characters, the float flag, and the
rest. -/
def lexNumberAux : List Char → Bool → List Char → List Char × Bool × List Char
  | [], isFloat, acc => (acc.reverse, isFloat, [])
  | ch :: t, isFloat, acc =>
    if ch = '.' ∧ isFloat = false then lexNumberAux t true (ch :: acc)
    else if ch.isDigit then lexNumberAux t isFloat (ch :: acc)
    else (acc.reverse, isFloat, ch :: t)

/-- Decimal value of a digit string. -/
def digitsToNat (ds : List Char) : Nat :=
  ds.foldl (fun acc c => acc * 10 + (c.toNat - '0'.toNat)) 0

/-- Exact value of `f64::from_str` on a `digits[.digits]` literal, in the
rational model of finite floats (IEEE rounding not modelled; no settled
claim depends on it).  This parse never fails. -/
def parseFloatLit (ds : List Char) : ℚ :=
  let intPart := ds.takeWhile (fun c => c ≠ '.')
  let rest := ds.dropWhile (fun c => c ≠ '.')
  let fracPart := rest.drop 1
  (digitsToNat intPart : ℚ) + (digitsToNat fracPart : ℚ) / ((10 : ℚ) ^ fracPart.length)

/-- The identifier loop (lines 328-337 and 356-365): collect alphanumerics
and underscores.  (`char::is_alphanumeric` is Unicode in Rust; ASCII here,
see header.) -/
def lexIdentAux : List Char → List Char → List Char × List Char
  | [], acc => (acc.reverse, [])
  | ch :: t, acc =>
    if ch.isAlphanum ∨ ch = '_' then lexIdentAux t (ch :: acc)
    else (acc.reverse, ch :: t)

/-- The escape-aware double-quoted string loop (lines 275-297).  A
backslash at end of input drops the backslash and ends at end-of-input,
like the source's `if let Some(escaped_char)`. -/
def lexStringAux : List Char → String → String × List Char
  | [], acc => (acc, [])
  | '\\' :: t, acc =>
    match t with
    | [] => (acc, [])
    | e :: t' =>
      let c : Char :=
        if e = 'n' then '\n'
        else if e = 't' then '\t'
        else if e = 'r' then '\r'
        else if e = 'b' then '\x08'
        else if e = '\\' then '\\'
        else if e = '"' then '"'
        else e
      lexStringAux t' (acc.push c)
  | '"' :: t, acc => (acc, t)
  | ch :: t, acc => lexStringAux t (acc.push ch)

/-- The triple-quoted string loop (lines 259-272). -/
def lexMultilineAux : List Char → String → String × List Char
  | [], acc => (acc, [])
  | '"' :: '"' :: '"' :: t, acc => (acc, t)
  | ch :: t, acc => lexMultilineAux t (acc.push ch)

/-- The raw-string loop (lines 205-212): no escapes, ends at `"`. -/
def lexRawAux : List Char → String → String × List Char
  | [], acc => (acc, [])
  | '"' :: t, acc => (acc, t)
  | ch :: t, acc => lexRawAux t (acc.push ch)

/-- The brace-counting hole loop of a formatted string (lines 228-244):
returns the hole text (closing brace at depth 1 not included) and the
number of characters consumed (the loop consumes exactly the characters it
scans, so the rest of the input is `drop` of that count). -/
def lexHoleAux : List Char → Nat → String → String × Nat
  | [], _, acc => (acc, 0)
  | ch :: t, depth, acc =>
    if ch = '{' then
      let (hole, n) := lexHoleAux t (depth + 1) (acc.push ch); (hole, n + 1)
    else if ch = '}' then
      if depth = 1 then (acc, 1)
      else let (hole, n) := lexHoleAux t (depth - 1) (acc.push ch); (hole, n + 1)
    else
      let (hole, n) := lexHoleAux t depth (acc.push ch); (hole, n + 1)

/-- The formatted-string body loop (lines 219-251): split on brace pairs,
building the `{}` template and the raw hole strings. -/
def lexFStringAux : List Char → String → List String → Token × List Char
  | [], acc, holes => (.FormattedString acc holes, [])
  | '"' :: t, acc, holes => (.FormattedString acc holes, t)
  | '{' :: t, acc, holes =>
    let (hole, n) := lexHoleAux t 1 ""
    lexFStringAux (t.drop n) (acc ++ "{}") (holes ++ [hole])
  | ch :: t, acc, holes => lexFStringAux t (acc.push ch) holes
termination_by cs _ _ => cs.length
decreasing_by
  all_goals simp_wf <;> omega

/-- Result of `next_token` (lines 144-440): end of input (`None`), a panic
(the `unwrap` on an overflowing integer literal), fuel exhaustion (the
self-recursive whitespace/comment skips are metered; the meter never runs
out at the fuel `tokenize` supplies), or a token plus the remaining
input. -/
inductive NextOut where
  | eof
  | panic
  | timeout
  | tok (t : Token) (rest : List Char)

/-- The keyword table of the letter arm (lines 367-436), including the
`DISPLAY` arm's greedy whitespace skip and inline-string consumption.  The
inline-string loop (lines 384-391) has no escapes and is the same loop as
the raw-string one. -/
def keywordToken (ident : String) (rest : List Char) : NextOut :=
  if ident = "NULL" then .tok .Null rest
  else if ident = "NAN" then .tok .NaN rest
  else if ident = "MOD" then .tok .Modulo rest
  else if ident = "DISPLAY" then
    let rest2 := rest.dropWhile (fun ch => ch.isWhitespace)
    match rest2 with
    | '"' :: rest3 =>
      let (s, rest4) := lexRawAux rest3 ""
      .tok (.Display (some (.String s))) rest4
    | _ => .tok (.Display none) rest2
  else if ident = "DISPLAYINLINE" then .tok .DisplayInline rest
  else if ident = "INPUT" then .tok .Input rest
  else if ident = "IF" then .tok .If rest
  else if ident = "ELSE" then .tok .Else rest
  else if ident = "REPEAT" then .tok .Repeat rest
  else if ident = "NOT" then .tok .Not rest
  else if ident = "AND" then .tok .And rest
  else if ident = "OR" then .tok .Or rest
  else if ident = "COMMENT" then .tok .Comment rest
  else if ident = "COMMENTBLOCK" then .tok .CommentBlock rest
  else if ident = "RETURN" then .tok .Return rest
  else if ident = "TRUE" then .tok (.Boolean true) rest
  else if ident = "FALSE" then .tok (.Boolean false) rest
  else if ident = "CLASS" then .tok .Class rest
  else if ident = "TOSTRING" then .tok .ToString rest
  else if ident = "TONUM" then .tok .ToNum rest
  else if ident = "FOR" then .tok .For rest
  else if ident = "TRIM" then .tok (.Identifier "TRIM") rest
  else if ident = "REPLACE" then .tok (.Identifier "REPLACE") rest
  else if ident = "UPPERCASE" then .tok (.Identifier "UPPERCASE") rest
  else if ident = "LOWERCASE" then .tok (.Identifier "LOWERCASE") rest
  else if ident = "EACH" then .tok .Each rest
  else if ident = "IN" then .tok .In rest
  else if ident = "PROCEDURE" then .tok .Procedure rest
  else if ident = "SUBSTRING" then .tok .Substring rest
  else if ident = "CONCAT" then .tok .Concat rest
  else if ident = "IMPORT" then .tok .Import rest
  else if ident = "UNTIL" then .tok .Until rest
  else if ident = "TIMES" then .tok .Times rest
  else if ident = "NOT=" then .tok .NotEqual rest
  else if ident = "INSERT" then .tok .ListInsert rest
  else if ident = "APPEND" then .tok .ListAppend rest
  else if ident = "REMOVE" then .tok .ListRemove rest
  else if ident = "LENGTH" then .tok .ListLength rest
  else if ident = "RANDOM" then .tok .Random rest
  else if ident = "SORT" then .tok .Sort rest
  else if ident = "TRY" then .tok .Try rest
  else if ident = "CATCH" then .tok .Catch rest
  else .tok (.Identifier ident) rest

/-- `next_token` from src/lexer.rs (lines 144-440), arm for arm in source
order (the order only matters where patterns overlap: the guarded `r"`/`f"`
arms precede the letter arm, and the `N` arm precedes it too).  The final
arm is the unknown-character fallback: an `Identifier` of length one. -/
def nextToken : Nat → List Char → NextOut
  | 0, _ => .timeout
  | _ + 1, [] => .eof
  | fuel + 1, c :: rest =>
    if c = '/' then
      match rest with
      | '/' :: rest2 => nextToken fuel (rest2.drop (skipLineCount rest2))
      | _ => .tok .Divide rest
    else if c = '\n' then .tok .Newline rest
    else if c = ' ' ∨ c = '\t' ∨ c = '\r' then nextToken fuel rest
    else if c = '{' then .tok .OpenBrace rest
    else if c = '}' then .tok .CloseBrace rest
    else if c = '=' then .tok .Equal rest
    else if c = '>' then
      match rest with
      | '=' :: rest2 => .tok .GreaterThanOrEqual rest2
      | _ => .tok .GreaterThan rest
    else if c = '<' then
      match rest with
      | '-' :: rest2 => .tok .Assign rest2
      | '=' :: rest2 => .tok .LessThanOrEqual rest2
      | _ => .tok .LessThan rest
    else if c = '+' then .tok .Plus rest
    else if c = '-' then .tok .Minus rest
    else if c = '*' then .tok .Multiply rest
    else if c = '(' then .tok .OpenParen rest
    else if c = ')' then .tok .CloseParen rest
    else if c = '[' then .tok .OpenBracket rest
    else if c = ']' then .tok .CloseBracket rest
    else if c = ',' then .tok .Comma rest
    else if c = 'r' ∧ rest.head? = some '"' then
      let (s, rest2) := lexRawAux (rest.drop 1) ""
      .tok (.RawString s) rest2
    else if c = 'f' ∧ rest.head? = some '"' then
      let (t, rest2) := lexFStringAux (rest.drop 1) "" []
      .tok t rest2
    else if c = '"' then
      match rest with
      | '"' :: '"' :: rest2 =>
        let (s, rest3) := lexMultilineAux rest2 ""
        .tok (.MultilineString s) rest3
      | _ =>
        let (s, rest2) := lexStringAux rest ""
        .tok (.String s) rest2
    else if '0' ≤ c ∧ c ≤ '9' then
      let (numChars, isFloat, rest2) := lexNumberAux rest false [c]
      if isFloat then .tok (.Float (parseFloatLit numChars)) rest2
      else if digitsToNat numChars ≤ i64Max.toNat then
        .tok (.Integer (digitsToNat numChars)) rest2
      else
        .panic
    else if c = 'N' then
      let (identChars, rest2) := lexIdentAux rest ['N']
      let ident := String.mk identChars
      if ident = "NULL" then .tok .Null rest2
      else if ident = "NAN" then .tok .NaN rest2
      else if ident = "NOT" then
        match rest2 with
        | '=' :: rest3 => .tok .NotEqual rest3
        | _ => .tok .Not rest2
      else .tok (.Identifier ident) rest2
    else if ('a' ≤ c ∧ c ≤ 'z') ∨ ('A' ≤ c ∧ c ≤ 'Z') then
      let (identChars, rest2) := lexIdentAux rest [c]
      keywordToken (String.mk identChars) rest2
    else
      .tok (.Identifier (String.mk [c])) rest

/-- The `COMMENTBLOCK` scan of `tokenize` (lines 119-135): consume one
character, then test whether the remaining input starts with the literal
`COMMENTBLOCK` (byte offsets = character offsets on ASCII input); on a
match consume the marker too; `none` when the end marker is never found
(the source then returns the tokens collected so far). -/
def skipCommentBlock : List Char → Option (List Char)
  | [] => none
  | _ :: t =>
    if "COMMENTBLOCK".toList.isPrefixOf t then some (t.drop 12)
    else skipCommentBlock t

/-- Result of `tokenize`: the token list, a panic from `next_token`, or
fuel exhaustion (never reached at the fuel `tokenize` supplies, since every
iteration consumes at least one character). -/
inductive LexOut where
  | ok (tokens : List Token)
  | panic
  | timeout

/-- The `tokenize` loop (lines 106-142): collect tokens, eliding comments;
`Comment` consumes the rest of the line, `CommentBlock` scans for its end
marker and on failure returns what was collected. -/
def tokenizeAux : Nat → List Char → List Token → LexOut
  | 0, _, _ => .timeout
  | fuel + 1, cs, acc =>
    match nextToken (cs.length + 1) cs with
    | .eof => .ok acc
    | .panic => .panic
    | .timeout => .timeout
    | .tok .Comment rest => tokenizeAux fuel (rest.drop (skipLineCount rest)) acc
    | .tok .CommentBlock rest =>
      match skipCommentBlock rest with
      | some rest2 => tokenizeAux fuel rest2 acc
      | none => .ok acc
    | .tok t rest => tokenizeAux fuel rest (acc ++ [t])

/-- `Lexer::new` + `tokenize` on a source string. -/
def tokenize (input : String) : LexOut :=
  tokenizeAux (input.length + 1) input.toList []

/-- `matches!(v, Value::Boolean(_))`. -/
def Value.isBoolean : Value → Bool
  | .Boolean _ => true
  | _ => false

/-- A number in the sort comparator's sense: `Integer` or `Float`. -/
def Value.isNumber : Value → Bool
  | .Integer _ => true
  | .Float _ => true
  | _ => false

/-- A `String` value. -/
def Value.isStringValue : Value → Bool
  | .String _ => true
  | _ => false

/-- PSL program
`PROCEDURE f() { TRY { RETURN(1) } CATCH (e) { DISPLAY(e) } RETURN(2) }`
`DISPLAY(f())` — a RETURN executing inside a TRY block, with a CATCH that
displays its bound error variable. -/
def tryCatchReturnProgram : AstNode := .Program [
  .ProcedureDecl "f" [] (.Block [
    .TryCatch (.Block [.Return (.Integer 1)]) (some "e")
      (.Block [.Display (some (.Identifier "e"))]),
    .Return (.Integer 2)]),
  .Display (some (.ProcedureCall "f" []))]

/-- PSL program
`PROCEDURE g() { DISPLAY("side") RETURN(TRUE) }` `DISPLAY(5 AND g())` —
an AND whose left operand is the non-boolean `5` and whose right operand
has an observable side effect. -/
def andSideEffectProgram : AstNode := .Program [
  .ProcedureDecl "g" [] (.Block [
    .Display (some (.String "side")),
    .Return (.Boolean true)]),
  .Display (some (.BinaryOp (.Integer 5) .And (.ProcedureCall "g" [])))]

/-- PSL program
`PROCEDURE f() { DISPLAY("hi") RETURN(1) }` `x <- f()` — an assignment
whose right-hand side is not a formatted string but whose evaluation
appends to the output buffer. -/
def assignCallOutputProgram : AstNode := .Program [
  .ProcedureDecl "f" [] (.Block [
    .Display (some (.String "hi")),
    .Return (.Integer 1)]),
  .Assignment (.Identifier "x") (.ProcedureCall "f" [])]

/-- PSL program `DISPLAY(SUBSTRING("ab", 1, 3))`: an end index exceeding
the string length by one. -/
def substringPanicProgram : AstNode := .Program [
  .Display (some (.Substring (.String "ab") (.Integer 1) (.Integer 3)))]

/-- C1: the claim says a RETURN inside a TRY block unwinds past the
TRY/CATCH frame and the CATCH block is entered only by genuine runtime
errors.  The code disagrees: the `Err` arm of the `TryCatch` evaluation
(src/interpreter.rs 1635) matches the `"Return"` sentinel too, so the CATCH
block runs with the error variable bound to the string `"Return"` and the
stored return value (set on the try scope's frame) is lost.  On
`PROCEDURE f() { TRY { RETURN(1) } CATCH (e) { DISPLAY(e) } RETURN(2) }`
`DISPLAY(f())` the claim predicts output `"1\n"`; the code prints the
sentinel text and then `2` from the statement after the TRY/CATCH. -/
theorem return_inside_try_is_caught_by_catch :
    run 100 tryCatchReturnProgram = .ok "Return\n2\n" := by rfl

/-- C3: the claim says `tokenize` never fails on any input.  The number arm
(src/lexer.rs 321-323) calls `.parse::<i64>().unwrap()`, which panics on a
digit sequence exceeding `i64::MAX`; the first conjunct evaluates the lexer
on `"9223372036854775808"` (= 2^63) and observes the panic.  The remaining
conjuncts confirm the claim's fallback sentence: a character that begins no
token form becomes a one-character `Identifier`, and `i64::MAX` itself
still lexes fine. -/
theorem tokenize_panics_on_huge_integer_literal :
    tokenize "9223372036854775808" = .panic
      ∧ tokenize "@" = .ok [.Identifier "@"]
      ∧ tokenize "~" = .ok [.Identifier "~"]
      ∧ tokenize "9223372036854775807" = .ok [.Integer 9223372036854775807] := by
  exact ⟨rfl, rfl, rfl, rfl⟩

/-- C6: the claim (and the repository's own test `test_null_and_nan`,
src/tests/mod.rs 2375) says the `NaN` value renders as `"NaN"`;
`value_to_string` (src/interpreter.rs 1870) renders it as `"NAN"`.  The
other renderings the claim lists are as stated: lists with `", "`
separators in brackets, lowercase booleans, `"NULL"`, and empty `Unit`. -/
theorem valueToString_renders_NaN_uppercase :
    valueToString .NaN = "NAN"
      ∧ valueToString (.List [.Integer 1, .Integer 2]) = "[1, 2]"
      ∧ valueToString (.Boolean true) = "true"
      ∧ valueToString (.Boolean false) = "false"
      ∧ valueToString .Null = "NULL"
      ∧ valueToString .Unit = "" := by
  exact ⟨rfl, rfl, rfl, rfl, rfl, rfl⟩

/-- C7: in `evaluate_binary_op`, the `NaN` arms come first
(src/interpreter.rs 1670-1674): equality with a `NaN` operand is `false`,
inequality is `true`, and every other operator with a `NaN` operand yields
`NaN`, whatever the other operand is.  (`AND`/`OR` expressions short-circuit
in `evaluate_node` before reaching this function; the claim, like its cited
source lines, is about `evaluate_binary_op` itself.) -/
theorem nan_comparisons_and_propagation (op : BinaryOperator) (v : Value) :
    evaluateBinaryOp .NaN op v =
        .ok (match op with
             | .Eq => .Boolean false
             | .NotEq => .Boolean true
             | _ => .NaN)
      ∧ evaluateBinaryOp v op .NaN =
        .ok (match op with
             | .Eq => .Boolean false
             | .NotEq => .Boolean true
             | _ => .NaN) := by
  cases op <;> cases v <;> exact ⟨rfl, rfl⟩

/-- C8: the claim says an out-of-range SUBSTRING index is reported as an
error, never a panic.  The bounds check of the `AstNode::Substring` arm
(src/interpreter.rs 1355) is `(end_idx as usize) <= s.len()`, one too lax
for the inclusive slice `s[start_idx..=end_idx]` that follows: with
`b = LENGTH(s) + 1` the check passes and the slice panics.  The first two
conjuncts evaluate the failing input `SUBSTRING("ab", 1, 3)` (slice level
and whole-program level); the rest confirm the in-range behaviour (1-based
inclusive) and that indices further out, or below 1, do error. -/
theorem substring_end_one_past_length_panics :
    substringSlice "ab" 1 3 = .panic
      ∧ run 20 substringPanicProgram = .panic
      ∧ substringSlice "ab" 1 2 = .ok (.String "ab")
      ∧ substringSlice "ab" 2 2 = .ok (.String "b")
      ∧ substringSlice "abc" 2 3 = .ok (.String "bc")
      ∧ substringSlice "ab" 1 4 = .err "Invalid substring indices"
      ∧ substringSlice "ab" 0 1 = .err "Invalid substring indices"
      ∧ substringSlice "ab" 2 1 = .err "Invalid substring indices" := by
  exact ⟨rfl, rfl, rfl, rfl, rfl, rfl, rfl, rfl⟩

/-- C10: after the `NaN` arms, `evaluate_binary_op` has the catch-all
`(Value::Null, _, _) | (_, _, Value::Null) => Ok(Value::Boolean(false))`
(src/interpreter.rs 1678), preceded only by the two both-`Null` equality
arms.  So with a `Null` operand (and no `NaN` operand) every operator other
than `=` and `NOT=` yields `Boolean(false)` — including arithmetic like
`NULL + 1`, which produces a boolean rather than a type error — and the
mixed `NULL NOT= 5` also falls to the catch-all, yielding `false`. -/
theorem null_operand_catch_all :
    (∀ (a b : Value) (op : BinaryOperator),
        (a = .Null ∨ b = .Null) → a ≠ .NaN → b ≠ .NaN →
        op ≠ .Eq → op ≠ .NotEq →
        evaluateBinaryOp a op b = .ok (.Boolean false))
      ∧ evaluateBinaryOp .Null .NotEq (.Integer 5) = .ok (.Boolean false)
      ∧ evaluateBinaryOp .Null .Add (.Integer 1) = .ok (.Boolean false) := by
  refine ⟨?_, rfl, rfl⟩
  intro a b op h hna hnb hop1 hop2
  rcases h with rfl | rfl
  · cases op <;> cases b <;> first | rfl | simp_all
  · cases op <;> cases a <;> first | rfl | simp_all

/-- Witness for C10: the universal part applied at `NULL - 7`. -/
theorem null_operand_catch_all_witness :
    evaluateBinaryOp .Null .Sub (.Integer 7) = .ok (.Boolean false) :=
  null_operand_catch_all.1 .Null (.Integer 7) .Sub (Or.inl rfl) (by simp)
    (by simp) (by simp) (by simp)

/-- C2 counterexample: the claim says `a AND b` evaluates `b` only when `a`
evaluates to `Boolean(true)`, and that a non-boolean operand reached after
short-circuiting is a type error.  In
`PROCEDURE g() { DISPLAY("side") RETURN(TRUE) }` `DISPLAY(5 AND g())` the
left operand evaluates to `Integer(5)` — not `Boolean(true)` — yet the
right operand IS evaluated (its `"side"` output appears) and the whole
expression succeeds with `Boolean(true)` instead of a type error. -/
theorem and_right_operand_evaluated_for_integer_left :
    run 100 andSideEffectProgram = .ok "side\ntrue\n" := by rfl

/-- C2 as amended: in the `And`/`Or` arms of `evaluate_node`
(src/interpreter.rs 255-280), `a AND b` short-circuits to `Boolean(false)`
exactly when `a` evaluates to `Boolean(false)`; for EVERY other left value
(booleans and non-booleans alike) `b` is evaluated, and the result is
`Boolean` of `b`'s value when `b` is boolean and a type error on the RIGHT
operand otherwise.  `a OR b` is symmetric, short-circuiting to
`Boolean(true)` exactly on `Boolean(true)`.  A non-boolean left operand is
never itself rejected. -/
theorem and_or_short_circuit_semantics :
    (∀ fuel a b env s s₁,
        evaluateNode fuel a env s = (s₁, .ok (.Boolean false)) →
        evaluateNode (fuel + 1) (.BinaryOp a .And b) env s = (s₁, .ok (.Boolean false)))
      ∧ (∀ fuel a b env s s₁ v s₂ rb,
        evaluateNode fuel a env s = (s₁, .ok v) → v ≠ .Boolean false →
        evaluateNode fuel b env s₁ = (s₂, .ok (.Boolean rb)) →
        evaluateNode (fuel + 1) (.BinaryOp a .And b) env s = (s₂, .ok (.Boolean rb)))
      ∧ (∀ fuel a b env s s₁ v s₂ w,
        evaluateNode fuel a env s = (s₁, .ok v) → v ≠ .Boolean false →
        evaluateNode fuel b env s₁ = (s₂, .ok w) → w.isBoolean = false →
        evaluateNode (fuel + 1) (.BinaryOp a .And b) env s =
          (s₂, .err "Right operand of AND must be boolean"))
      ∧ (∀ fuel a b env s s₁,
        evaluateNode fuel a env s = (s₁, .ok (.Boolean true)) →
        evaluateNode (fuel + 1) (.BinaryOp a .Or b) env s = (s₁, .ok (.Boolean true)))
      ∧ (∀ fuel a b env s s₁ v s₂ rb,
        evaluateNode fuel a env s = (s₁, .ok v) → v ≠ .Boolean true →
        evaluateNode fuel b env s₁ = (s₂, .ok (.Boolean rb)) →
        evaluateNode (fuel + 1) (.BinaryOp a .Or b) env s = (s₂, .ok (.Boolean rb)))
      ∧ (∀ fuel a b env s s₁ v s₂ w,
        evaluateNode fuel a env s = (s₁, .ok v) → v ≠ .Boolean true →
        evaluateNode fuel b env s₁ = (s₂, .ok w) → w.isBoolean = false →
        evaluateNode (fuel + 1) (.BinaryOp a .Or b) env s =
          (s₂, .err "Right operand of OR must be boolean")) := by
  refine ⟨?_, ?_, ?_, ?_, ?_, ?_⟩
  · intro fuel a b env s s₁ ha
    simp [evaluateNode, ha]
  · intro fuel a b env s s₁ v s₂ rb ha hv hb
    cases v <;> simp_all [evaluateNode]
  · intro fuel a b env s s₁ v s₂ w ha hv hb hw
    cases v <;> cases w <;> simp_all [evaluateNode, Value.isBoolean]
  · intro fuel a b env s s₁ ha
    simp [evaluateNode, ha]
  · intro fuel a b env s s₁ v s₂ rb ha hv hb
    cases v <;> simp_all [evaluateNode]
  · intro fuel a b env s s₁ v s₂ w ha hv hb hw
    cases v <;> cases w <;> simp_all [evaluateNode, Value.isBoolean]

/-- Witness for C2: the short-circuit case at `FALSE AND NULL` and the
continue case at `5 AND TRUE` (non-boolean left, boolean right). -/
theorem and_or_short_circuit_semantics_witness :
    evaluateNode 2 (.BinaryOp (.Boolean false) .And .Null) 0 initialStore
        = (initialStore, .ok (.Boolean false))
      ∧ evaluateNode 2 (.BinaryOp (.Integer 5) .And (.Boolean true)) 0 initialStore
        = (initialStore, .ok (.Boolean true)) :=
  ⟨and_or_short_circuit_semantics.1 1 (.Boolean false) .Null 0 initialStore
      initialStore rfl,
   and_or_short_circuit_semantics.2.1 1 (.Integer 5) (.Boolean true) 0 initialStore
      initialStore (.Integer 5) initialStore true rfl (by simp) rfl⟩

/-- Point mutation of one frame leaves every frame's output unchanged when
the mutation itself does. -/
theorem frameAt_after_listModify {g : Frame → Frame}
    (hg : ∀ fr, (g fr).output = fr.output) :
    ∀ (l : List Frame) (i j : Nat),
      ((listModify g i l).getD j emptyFrame).output = (l.getD j emptyFrame).output := by
  intro l
  induction l with
  | nil => intro i j; simp [listModify]
  | cons x xs ih =>
    intro i j
    cases i <;> cases j <;> (simp [listModify, hg]; try simpa using ih _ _)

/-- C4 counterexample: the claim says an assignment whose right-hand side
is not syntactically a `FormattedString` appends nothing to the output
buffer.  In `PROCEDURE f() { DISPLAY("hi") RETURN(1) }` `x <- f()` the
right-hand side is a procedure call, yet evaluating the assignment appends
`"hi\n"` (the callee's output is flushed to the caller at call return,
src/interpreter.rs 1232). -/
theorem assignment_with_call_rhs_appends_output :
    run 30 assignCallOutputProgram = .ok "hi\n" := by rfl

/-- C4 as amended: the `AstNode::Assignment` arm (src/interpreter.rs
236-252) first evaluates the right-hand side; when that side is
syntactically a `FormattedString` it appends the formatted value plus a
newline to the current scope's output before binding; with any other
right-hand side the assignment itself appends nothing BEYOND whatever
output evaluating the right-hand side produced (the binding `setVar`
touches no output buffer, third conjunct). -/
theorem assignment_formatted_string_output :
    (∀ fuel name template exprs env s s₁ v,
        evaluateNode fuel (.FormattedString template exprs) env s = (s₁, .ok v) →
        evaluateNode (fuel + 1)
            (.Assignment (.Identifier name) (.FormattedString template exprs)) env s =
          ((s₁.appendOutput env (valueToString v ++ "\n")).setVar env name v, .ok v))
      ∧ (∀ fuel name e env s s₁ v, e.isFormattedString = false →
        evaluateNode fuel e env s = (s₁, .ok v) →
        evaluateNode (fuel + 1) (.Assignment (.Identifier name) e) env s =
          (s₁.setVar env name v, .ok v))
      ∧ (∀ s env name v idx,
        ((Store.setVar s env name v).frameAt idx).output = (s.frameAt idx).output) := by
  refine ⟨?_, ?_, ?_⟩
  · intro fuel name template exprs env s s₁ v h
    simp [evaluateNode, h, AstNode.isFormattedString]
  · intro fuel name e env s s₁ v he h
    simp [evaluateNode, h, he]
  · intro s env name v idx
    simp only [Store.setVar, Store.modifyFrame, Store.frameAt]
    exact frameAt_after_listModify
      (g := fun f => { f with vars := setAssoc f.vars name v })
      (fun fr => rfl) s.frames env idx

/-- Witness for C4: the formatted-string case at `x <- f"a{5}"` and the
plain case at `y <- 7`. -/
theorem assignment_formatted_string_output_witness :
    evaluateNode 6 (.Assignment (.Identifier "x") (.FormattedString "a{}" [.Integer 5]))
        0 initialStore =
      ((initialStore.appendOutput 0 (valueToString (.String "a5") ++ "\n")).setVar
          0 "x" (.String "a5"), .ok (.String "a5"))
      ∧ evaluateNode 2 (.Assignment (.Identifier "y") (.Integer 7)) 0 initialStore =
        (initialStore.setVar 0 "y" (.Integer 7), .ok (.Integer 7)) :=
  ⟨assignment_formatted_string_output.1 5 "x" "a{}" [.Integer 5] 0 initialStore
      initialStore (.String "a5") (by rfl),
   assignment_formatted_string_output.2.1 1 "y" (.Integer 7) 0 initialStore
      initialStore (.Integer 7) rfl (by rfl)⟩

/-- For positive divisors, the source's truncating-division overflow probe
`a > i64::MAX / b` is exactly `i64::MAX < a * b`. -/
theorem i64Max_tdiv_lt_iff (a b : Int) (hb : 0 < b) :
    i64Max.tdiv b < a ↔ i64Max < a * b := by
  rw [Int.tdiv_eq_ediv (by norm_num [i64Max]) hb.le]
  exact Int.ediv_lt_iff_lt_mul hb

/-- For a positive first factor, the probe `b < i64::MIN / a` is exactly
`a * b < i64::MIN`. -/
theorem lt_i64Min_tdiv_iff (a b : Int) (ha : 0 < a) :
    b < i64Min.tdiv a ↔ a * b < i64Min := by
  rw [show i64Min.tdiv a = -(((2:Int) ^ 63).tdiv a) by rw [i64Min, Int.neg_tdiv],
      Int.tdiv_eq_ediv (by norm_num) ha.le, lt_neg, Int.ediv_lt_iff_lt_mul ha,
      show -b * a = -(a * b) by ring, lt_neg, i64Min]

/-- For a negative divisor, the probe `a < i64::MAX / b` is exactly
`i64::MAX < a * b`. -/
theorem lt_i64Max_tdiv_neg_iff (a b : Int) (hb : b < 0) :
    a < i64Max.tdiv b ↔ i64Max < a * b := by
  rw [show i64Max.tdiv b = -(i64Max.tdiv (-b)) by rw [← Int.tdiv_neg, neg_neg],
      Int.tdiv_eq_ediv (by norm_num [i64Max]) (by omega), lt_neg,
      Int.ediv_lt_iff_lt_mul (by omega : (0:Int) < -b),
      show -a * -b = a * b by ring]

/-- The four sign-split overflow probes of the integer-multiplication arm
(src/interpreter.rs 1695-1700) fire exactly when the mathematical product
leaves the i64 range. -/
theorem mulOverflowCond_iff (a b : Int) (ha : a ≠ 0) (hb : b ≠ 0) :
    ((a > 0 ∧ b > 0 ∧ a > i64Max.tdiv b)
      ∨ (a > 0 ∧ b < 0 ∧ b < i64Min.tdiv a)
      ∨ (a < 0 ∧ b > 0 ∧ a < i64Min.tdiv b)
      ∨ (a < 0 ∧ b < 0 ∧ a < i64Max.tdiv b))
    ↔ ¬(i64Min ≤ a * b ∧ a * b ≤ i64Max) := by
  rcases ha.lt_or_lt with ha' | ha' <;> rcases hb.lt_or_lt with hb' | hb'
  · have hp : 0 < a * b := mul_pos_of_neg_of_neg ha' hb'
    have harm := lt_i64Max_tdiv_neg_iff a b hb'
    have hlow : i64Min ≤ a * b :=
      le_of_lt (lt_of_lt_of_le (show i64Min < 0 by norm_num [i64Min]) hp.le)
    constructor
    · rintro (⟨h, _, _⟩ | ⟨h, _, _⟩ | ⟨_, h, _⟩ | ⟨_, _, h⟩)
      · exact absurd h (by omega)
      · exact absurd h (by omega)
      · exact absurd h (by omega)
      · intro hf; exact absurd hf.2 (not_le.mpr (harm.mp h))
    · intro hnf
      have hhigh : i64Max < a * b := by
        by_contra hcon
        push_neg at hcon
        exact hnf ⟨hlow, hcon⟩
      exact Or.inr (Or.inr (Or.inr ⟨ha', hb', harm.mpr hhigh⟩))
  · have hp : a * b < 0 := mul_neg_of_neg_of_pos ha' hb'
    have harm := lt_i64Min_tdiv_iff b a hb'
    rw [mul_comm b a] at harm
    have hhigh : a * b ≤ i64Max :=
      le_of_lt (lt_trans hp (show (0:Int) < i64Max by norm_num [i64Max]))
    constructor
    · rintro (⟨h, _, _⟩ | ⟨h, _, _⟩ | ⟨_, _, h⟩ | ⟨_, h, _⟩)
      · exact absurd h (by omega)
      · exact absurd h (by omega)
      · intro hf; exact absurd hf.1 (not_le.mpr (harm.mp h))
      · exact absurd h (by omega)
    · intro hnf
      have hlow : a * b < i64Min := by
        by_contra hcon
        push_neg at hcon
        exact hnf ⟨hcon, hhigh⟩
      exact Or.inr (Or.inr (Or.inl ⟨ha', hb', harm.mpr hlow⟩))
  · have hp : a * b < 0 := mul_neg_of_pos_of_neg ha' hb'
    have harm := lt_i64Min_tdiv_iff a b ha'
    have hhigh : a * b ≤ i64Max :=
      le_of_lt (lt_trans hp (show (0:Int) < i64Max by norm_num [i64Max]))
    constructor
    · rintro (⟨_, h, _⟩ | ⟨_, _, h⟩ | ⟨h, _, _⟩ | ⟨_, h, _⟩)
      · exact absurd h (by omega)
      · intro hf; exact absurd hf.1 (not_le.mpr (harm.mp h))
      · exact absurd h (by omega)
      · exact absurd h (by omega)
    · intro hnf
      have hlow : a * b < i64Min := by
        by_contra hcon
        push_neg at hcon
        exact hnf ⟨hcon, hhigh⟩
      exact Or.inr (Or.inl ⟨ha', hb', harm.mpr hlow⟩)
  · have hp : 0 < a * b := mul_pos ha' hb'
    have harm := i64Max_tdiv_lt_iff a b hb'
    have hlow : i64Min ≤ a * b :=
      le_of_lt (lt_of_lt_of_le (show i64Min < 0 by norm_num [i64Min]) hp.le)
    constructor
    · rintro (⟨_, _, h⟩ | ⟨_, h, _⟩ | ⟨h, _, _⟩ | ⟨h, _, _⟩)
      · intro hf; exact absurd hf.2 (not_le.mpr (harm.mp h))
      · exact absurd h (by omega)
      · exact absurd h (by omega)
      · exact absurd h (by omega)
    · intro hnf
      have hhigh : i64Max < a * b := by
        by_contra hcon
        push_neg at hcon
        exact hnf ⟨hlow, hcon⟩
      exact Or.inl ⟨ha', hb', harm.mpr hhigh⟩

/-- C5: on i64-ranged integer operands, the `+`, `-`, `*` arms of
`evaluate_binary_op` (src/interpreter.rs 1680-1708) return `Integer` of the
exact mathematical result exactly when that result fits in i64, and
otherwise return `Float` of the operation applied to both operands
reinterpreted as floats (exact rationals in this model; the multiplication
arm's `else` branch returns `Integer(0)` when a factor is zero, which is
the exact product). -/
theorem integer_add_sub_mul_overflow_promotes (a b : Int)
    (h1 : i64Min ≤ a) (h2 : a ≤ i64Max) (h3 : i64Min ≤ b) (h4 : b ≤ i64Max) :
    (evaluateBinaryOp (.Integer a) .Add (.Integer b) =
      if i64Min ≤ a + b ∧ a + b ≤ i64Max then .ok (.Integer (a + b))
      else .ok (.Float ((a : ℚ) + (b : ℚ))))
      ∧ (evaluateBinaryOp (.Integer a) .Sub (.Integer b) =
      if i64Min ≤ a - b ∧ a - b ≤ i64Max then .ok (.Integer (a - b))
      else .ok (.Float ((a : ℚ) - (b : ℚ))))
      ∧ (evaluateBinaryOp (.Integer a) .Mul (.Integer b) =
      if i64Min ≤ a * b ∧ a * b ≤ i64Max then .ok (.Integer (a * b))
      else .ok (.Float ((a : ℚ) * (b : ℚ)))) := by
  have hAdd : evaluateBinaryOp (.Integer a) .Add (.Integer b) =
      (if (a > 0 ∧ b > i64Max - a) ∨ (a < 0 ∧ b < i64Min - a) then
        .ok (.Float ((a : ℚ) + (b : ℚ))) else .ok (.Integer (a + b))) := rfl
  have hSub : evaluateBinaryOp (.Integer a) .Sub (.Integer b) =
      (if (b > 0 ∧ a < i64Min + b) ∨ (b < 0 ∧ a > i64Max + b) then
        .ok (.Float ((a : ℚ) - (b : ℚ))) else .ok (.Integer (a - b))) := rfl
  have hMul : evaluateBinaryOp (.Integer a) .Mul (.Integer b) =
      (if a ≠ 0 ∧ b ≠ 0 then
        if (a > 0 ∧ b > 0 ∧ a > i64Max.tdiv b)
            ∨ (a > 0 ∧ b < 0 ∧ b < i64Min.tdiv a)
            ∨ (a < 0 ∧ b > 0 ∧ a < i64Min.tdiv b)
            ∨ (a < 0 ∧ b < 0 ∧ a < i64Max.tdiv b) then
          .ok (.Float ((a : ℚ) * (b : ℚ)))
        else .ok (.Integer (a * b))
      else .ok (.Integer 0)) := rfl
  refine ⟨?_, ?_, ?_⟩
  · rw [hAdd]
    have hiff : ((a > 0 ∧ b > i64Max - a) ∨ (a < 0 ∧ b < i64Min - a)) ↔
        ¬(i64Min ≤ a + b ∧ a + b ≤ i64Max) := by
      simp only [i64Min, i64Max] at h1 h2 h3 h4 ⊢
      omega
    by_cases hf : i64Min ≤ a + b ∧ a + b ≤ i64Max
    · rw [if_neg (fun hc => (hiff.mp hc) hf), if_pos hf]
    · rw [if_pos (hiff.mpr hf), if_neg hf]
  · rw [hSub]
    have hiff : ((b > 0 ∧ a < i64Min + b) ∨ (b < 0 ∧ a > i64Max + b)) ↔
        ¬(i64Min ≤ a - b ∧ a - b ≤ i64Max) := by
      simp only [i64Min, i64Max] at h1 h2 h3 h4 ⊢
      omega
    by_cases hf : i64Min ≤ a - b ∧ a - b ≤ i64Max
    · rw [if_neg (fun hc => (hiff.mp hc) hf), if_pos hf]
    · rw [if_pos (hiff.mpr hf), if_neg hf]
  · rw [hMul]
    by_cases hz : a ≠ 0 ∧ b ≠ 0
    · have hiff := mulOverflowCond_iff a b hz.1 hz.2
      rw [if_pos hz]
      by_cases hf : i64Min ≤ a * b ∧ a * b ≤ i64Max
      · rw [if_neg (fun hc => (hiff.mp hc) hf), if_pos hf]
      · rw [if_pos (hiff.mpr hf), if_neg hf]
    · have hab : a * b = 0 := by
        rcases not_and_or.mp hz with h | h
        · rw [not_not.mp h, zero_mul]
        · rw [not_not.mp h, mul_zero]
      have hf : i64Min ≤ a * b ∧ a * b ≤ i64Max := by
        rw [hab]
        constructor <;> norm_num [i64Min, i64Max]
      rw [if_neg hz, if_pos hf, hab]

/-- Witness for C5: `2^62 + 2^62` overflows and promotes to `Float`;
`2 * 3` stays an exact `Integer`. -/
theorem integer_overflow_promotes_witness :
    evaluateBinaryOp (.Integer 4611686018427387904) .Add (.Integer 4611686018427387904) =
        .ok (.Float (((4611686018427387904 : Int) : ℚ) + ((4611686018427387904 : Int) : ℚ)))
      ∧ evaluateBinaryOp (.Integer 2) .Mul (.Integer 3) = .ok (.Integer 6) := by
  have h := integer_add_sub_mul_overflow_promotes 4611686018427387904 4611686018427387904
    (by decide) (by decide) (by decide) (by decide)
  have h2 := integer_add_sub_mul_overflow_promotes 2 3
    (by decide) (by decide) (by decide) (by decide)
  constructor
  · rw [h.1, if_neg (by decide)]
  · rw [h2.2.2, if_pos (by decide)]
    norm_num

theorem cmpInt_swap (a b : Int) : cmpInt b a = (cmpInt a b).swap := by
  unfold cmpInt
  rcases lt_trichotomy a b with h | rfl | h
  · simp [h, h.asymm, Ordering.swap]
  · simp [Ordering.swap]
  · simp [h, h.asymm, Ordering.swap]

theorem cmpRat_swap (a b : ℚ) : cmpRat b a = (cmpRat a b).swap := by
  unfold cmpRat
  rcases lt_trichotomy a b with h | rfl | h
  · simp [h, h.asymm, Ordering.swap]
  · simp [Ordering.swap]
  · simp [h, h.asymm, Ordering.swap]

theorem cmpString_swap (a b : String) : cmpString b a = (cmpString a b).swap := by
  unfold cmpString
  rcases lt_trichotomy a b with h | rfl | h
  · simp [h, h.asymm, Ordering.swap]
  · simp [Ordering.swap]
  · simp [h, h.asymm, Ordering.swap]

theorem cmpValue_swap (a b : Value) : cmpValue b a = (cmpValue a b).swap := by
  cases a <;> cases b <;>
    first
      | rfl
      | exact cmpInt_swap _ _
      | exact cmpRat_swap _ _
      | exact cmpString_swap _ _

theorem length_orderedInsertCmp (x : Value) (l : List Value) :
    (orderedInsertCmp x l).length = l.length + 1 := by
  induction l with
  | nil => rfl
  | cons y ys ih => by_cases h : cmpValue x y = .gt <;> simp [orderedInsertCmp, h, ih]

theorem length_sortValues (l : List Value) : (sortValues l).length = l.length := by
  induction l with
  | nil => rfl
  | cons x xs ih => simp [sortValues, length_orderedInsertCmp, ih]

theorem chain'_orderedInsertCmp (x : Value) :
    ∀ l : List Value, l.Chain' (fun a b => cmpValue a b ≠ .gt) →
      (orderedInsertCmp x l).Chain' (fun a b => cmpValue a b ≠ .gt) := by
  intro l
  induction l with
  | nil => intro _; simp [orderedInsertCmp]
  | cons y ys ih =>
    intro hch
    unfold orderedInsertCmp
    by_cases h : cmpValue x y = .gt
    · rw [if_pos h]
      apply List.Chain'.cons' (ih hch.tail)
      intro z hz
      cases ys with
      | nil =>
        simp [orderedInsertCmp] at hz
        subst hz
        rw [cmpValue_swap, h]
        simp [Ordering.swap]
      | cons z' zs =>
        unfold orderedInsertCmp at hz
        by_cases h2 : cmpValue x z' = .gt
        · rw [if_pos h2] at hz
          simp at hz
          subst hz
          exact (List.chain'_cons.mp hch).1
        · rw [if_neg h2] at hz
          simp at hz
          subst hz
          rw [cmpValue_swap, h]
          simp [Ordering.swap]
    · rw [if_neg h]
      apply List.Chain'.cons' hch
      intro z hz
      simp at hz
      subst hz
      exact h

theorem chain'_sortValues (l : List Value) :
    (sortValues l).Chain' (fun a b => cmpValue a b ≠ .gt) := by
  induction l with
  | nil => simp [sortValues]
  | cons x xs ih => exact chain'_orderedInsertCmp x _ ih

theorem sortValues_eq_self_of_chain' :
    ∀ l : List Value, l.Chain' (fun a b => cmpValue a b ≠ .gt) → sortValues l = l := by
  intro l
  induction l with
  | nil => intro _; rfl
  | cons x xs ih =>
    intro hch
    unfold sortValues
    rw [ih hch.tail]
    cases xs with
    | nil => rfl
    | cons y ys =>
      have hxy : cmpValue x y ≠ .gt := (List.chain'_cons.mp hch).1
      simp [orderedInsertCmp, hxy]

theorem sortValues_idem (l : List Value) : sortValues (sortValues l) = sortValues l :=
  sortValues_eq_self_of_chain' _ (chain'_sortValues l)

theorem mem_orderedInsertTagged (p q : Nat × Value) :
    ∀ l, q ∈ orderedInsertTagged p l → q = p ∨ q ∈ l := by
  intro l
  induction l with
  | nil => intro h; simp [orderedInsertTagged] at h; exact Or.inl h
  | cons r rs ih =>
    intro h
    unfold orderedInsertTagged at h
    by_cases hc : cmpValue p.2 r.2 = .gt
    · rw [if_pos hc] at h
      rcases List.mem_cons.mp h with h | h
      · exact Or.inr (List.mem_cons.mpr (Or.inl h))
      · rcases ih h with h | h
        · exact Or.inl h
        · exact Or.inr (List.mem_cons.mpr (Or.inr h))
    · rw [if_neg hc] at h
      rcases List.mem_cons.mp h with h | h
      · exact Or.inl h
      · exact Or.inr h

theorem mem_sortTagged (q : Nat × Value) :
    ∀ l, q ∈ sortTagged l → q ∈ l := by
  intro l
  induction l with
  | nil => intro h; simp [sortTagged] at h
  | cons p ps ih =>
    intro h
    rcases mem_orderedInsertTagged p q (sortTagged ps) h with rfl | h
    · exact List.mem_cons.mpr (Or.inl rfl)
    · exact List.mem_cons.mpr (Or.inr (ih h))

theorem map_snd_orderedInsertTagged (p : Nat × Value) :
    ∀ l, (orderedInsertTagged p l).map Prod.snd = orderedInsertCmp p.2 (l.map Prod.snd) := by
  intro l
  induction l with
  | nil => rfl
  | cons q qs ih =>
    by_cases hc : cmpValue p.2 q.2 = .gt <;>
      simp [orderedInsertTagged, orderedInsertCmp, hc, ih]

theorem map_snd_sortTagged :
    ∀ l, (sortTagged l).map Prod.snd = sortValues (l.map Prod.snd) := by
  intro l
  induction l with
  | nil => rfl
  | cons p ps ih => simp [sortTagged, sortValues, map_snd_orderedInsertTagged, ih]

theorem enumFrom_map_snd' (l : List Value) : ∀ n, (l.enumFrom n).map Prod.snd = l := by
  induction l with
  | nil => intro n; rfl
  | cons x xs ih => intro n; simp [List.enumFrom_cons, ih]

theorem pairwise_fst_lt_enumFrom (l : List Value) :
    ∀ n, (l.enumFrom n).Pairwise (fun p q => p.1 < q.1) := by
  induction l with
  | nil => intro n; simp
  | cons x xs ih =>
    intro n
    rw [List.enumFrom_cons, List.pairwise_cons]
    refine ⟨?_, ih (n + 1)⟩
    intro q hq
    have : n + 1 ≤ q.1 := by
      rcases q with ⟨i, v⟩
      exact (List.mem_enumFrom hq).1
    omega

theorem pairwise_stab_orderedInsertTagged (p : Nat × Value) :
    ∀ l, l.Pairwise (fun r q => cmpValue r.2 q.2 = .eq → r.1 < q.1) →
      (∀ q ∈ l, p.1 < q.1) →
      (orderedInsertTagged p l).Pairwise (fun r q => cmpValue r.2 q.2 = .eq → r.1 < q.1) := by
  intro l
  induction l with
  | nil => intro _ _; simp [orderedInsertTagged]
  | cons q qs ih =>
    intro hp htags
    unfold orderedInsertTagged
    by_cases hc : cmpValue p.2 q.2 = .gt
    · rw [if_pos hc]
      rcases List.pairwise_cons.mp hp with ⟨hq, hqs⟩
      refine List.pairwise_cons.mpr ⟨?_, ?_⟩
      · intro r hr
        rcases mem_orderedInsertTagged p r qs hr with rfl | hr'
        · intro heq
          rw [cmpValue_swap, hc] at heq
          simp [Ordering.swap] at heq
        · exact hq r hr'
      · exact ih hqs (fun r hr => htags r (List.mem_cons.mpr (Or.inr hr)))
    · rw [if_neg hc]
      refine List.pairwise_cons.mpr ⟨?_, hp⟩
      intro r hr _
      exact htags r hr

theorem pairwise_stab_sortTagged :
    ∀ l, l.Pairwise (fun p q => p.1 < q.1) →
      (sortTagged l).Pairwise (fun r q => cmpValue r.2 q.2 = .eq → r.1 < q.1) := by
  intro l
  induction l with
  | nil => intro _; simp [sortTagged]
  | cons p ps ih =>
    intro hp
    rcases List.pairwise_cons.mp hp with ⟨hq, hps⟩
    exact pairwise_stab_orderedInsertTagged p _ (ih hps)
      (fun r hr => hq r (mem_sortTagged r ps hr))

theorem cmpInt_lt_iff (a b : Int) : cmpInt a b = .lt ↔ a < b := by
  unfold cmpInt
  rcases lt_trichotomy a b with h | rfl | h
  · simp [h]
  · simp
  · simp [h, h.asymm]

theorem cmpRat_lt_iff (a b : ℚ) : cmpRat a b = .lt ↔ a < b := by
  unfold cmpRat
  rcases lt_trichotomy a b with h | rfl | h
  · simp [h]
  · simp
  · simp [h, h.asymm]

theorem cmpString_lt_iff (a b : String) : cmpString a b = .lt ↔ a < b := by
  unfold cmpString
  rcases lt_trichotomy a b with h | rfl | h
  · simp [h]
  · simp
  · simp [h, h.asymm]

/-- Below the `ulp`-threshold the rounding helper is the identity. -/
theorem roundNatToF64_of_le (n : Nat) (h : n ≤ 2 ^ 53) : roundNatToF64 n = n := by
  unfold roundNatToF64
  rw [if_pos h]

/-- The `i64 as f64` cast is exact for magnitudes at or below 2^53. -/
theorem i64ToF64_eq_self (a : Int) (h1 : -(2 ^ 53) ≤ a) (h2 : a ≤ 2 ^ 53) :
    i64ToF64 a = (a : ℚ) := by
  unfold i64ToF64
  by_cases h : 0 ≤ a
  · rw [if_pos h, roundNatToF64_of_le _ (by omega), ← Int.cast_natCast (R := ℚ),
      Int.toNat_of_nonneg h]
  · rw [if_neg h, roundNatToF64_of_le _ (by omega), ← Int.cast_natCast (R := ℚ),
      show (a.natAbs : Int) = -a by omega, Int.cast_neg, neg_neg]

/-- `cmpInt` is not-greater exactly on `≤`. -/
theorem cmpInt_ne_gt_iff (a b : Int) : cmpInt a b ≠ .gt ↔ a ≤ b := by
  unfold cmpInt
  rcases lt_trichotomy a b with h | rfl | h
  · simp [h, h.le]
  · simp
  · simp [h, h.asymm, not_le.mpr h]

/-- `cmpRat` is not-greater exactly on `≤`. -/
theorem cmpRat_ne_gt_iff (a b : ℚ) : cmpRat a b ≠ .gt ↔ a ≤ b := by
  unfold cmpRat
  rcases lt_trichotomy a b with h | rfl | h
  · simp [h, h.le]
  · simp
  · simp [h, h.asymm, not_le.mpr h]

/-- `cmpString` is not-greater exactly on `≤`. -/
theorem cmpString_ne_gt_iff (a b : String) : cmpString a b ≠ .gt ↔ a ≤ b := by
  unfold cmpString
  rcases lt_trichotomy a b with h | rfl | h
  · simp [h, h.le]
  · simp
  · simp [h, h.asymm, not_le.mpr h]

/-- C9 counterexample: the claim says the sort comparator compares numbers
numerically.  The source compares a mixed integer/float pair through the
rounding `i64 as f64` cast (src/interpreter.rs 1609-1614):
`9007199254740995 as f64` rounds up to `9007199254740996.0`, so the
comparator answers `Equal` on two numbers that differ (second and third
conjuncts).  The remaining conjuncts record the consequence for the sort:
mixed-type pairs compare `Equal` by the catch-all, so the comparator is not
transitive (`1` equal to `true`, `true` equal to `2`, yet `1` below `2`) —
outside a total preorder, `slice::sort_by` leaves the resulting order
unspecified, so the claim's universal idempotence and stability are not
behaviour the program promises on mixed-type lists. -/
theorem sort_comparator_rounds_and_is_not_transitive :
    cmpValue (.Integer 9007199254740995) (.Float 9007199254740996) = .eq
      ∧ ((9007199254740995 : Int) : ℚ) < 9007199254740996
      ∧ (9007199254740995 : Int) ≠ 9007199254740996
      ∧ cmpValue (.Integer 1) (.Boolean true) = .eq
      ∧ cmpValue (.Boolean true) (.Integer 2) = .eq
      ∧ cmpValue (.Integer 1) (.Integer 2) = .lt := by
  refine ⟨by decide, by norm_num, by decide, rfl, rfl, rfl⟩

/-- C9 as amended: the `AstNode::Sort` arm (src/interpreter.rs 1601-1622)
sorts a copy of the list with `sort_by` under the comparator of lines
1604-1617.  On every list over which the comparator is transitive — with
its built-in antisymmetry, a total preorder, the regime in which
`slice::sort_by` guarantees the (unique) stable sorted permutation —
the program's sort is the stable insertion sort `sortValues`, and: the Sort
node evaluates to it; it is idempotent; the position-tagged sort computes
the same list and is stable (comparator-equal elements keep increasing
original positions).  Length is preserved for every list (`sort_by` always
permutes).  The comparator compares integer pairs and float pairs
numerically; a mixed integer/float pair is compared through the rounding
`i64 as f64` cast, which agrees with numeric comparison for magnitudes at
or below 2^53; strings compare lexicographically; every other pair is
`Equal`.  All-integer, all-float and all-string lists are transitive, so
the scoped conjuncts cover them. -/
theorem sort_properties_on_transitive_lists :
    (∀ fuel e env s s₁ l, comparatorTransitiveOn l →
        evaluateNode fuel e env s = (s₁, .ok (.List l)) →
        evaluateNode (fuel + 1) (.Sort e) env s = (s₁, .ok (.List (sortValues l))))
      ∧ (∀ l : List Value, (sortValues l).length = l.length)
      ∧ (∀ l : List Value, comparatorTransitiveOn l →
          sortValues (sortValues l) = sortValues l)
      ∧ (∀ l : List Value, comparatorTransitiveOn l →
          (sortTagged l.enum).map Prod.snd = sortValues l)
      ∧ (∀ l : List Value, comparatorTransitiveOn l →
          (sortTagged l.enum).Pairwise (fun r q => cmpValue r.2 q.2 = .eq → r.1 < q.1))
      ∧ (∀ a b : Int, cmpValue (.Integer a) (.Integer b) = .lt ↔ a < b)
      ∧ (∀ p q : ℚ, cmpValue (.Float p) (.Float q) = .lt ↔ p < q)
      ∧ (∀ (a : Int) (q : ℚ), -(2 ^ 53) ≤ a → a ≤ 2 ^ 53 →
          (cmpValue (.Integer a) (.Float q) = .lt ↔ (a : ℚ) < q))
      ∧ (∀ (p : ℚ) (b : Int), -(2 ^ 53) ≤ b → b ≤ 2 ^ 53 →
          (cmpValue (.Float p) (.Integer b) = .lt ↔ p < (b : ℚ)))
      ∧ (∀ s t : String, cmpValue (.String s) (.String t) = .lt ↔ s < t)
      ∧ (∀ a b : Value, (a.isNumber && b.isNumber) = false →
          (a.isStringValue && b.isStringValue) = false → cmpValue a b = .eq)
      ∧ (∀ l : List Value, (∀ v ∈ l, ∃ n, v = Value.Integer n) →
          comparatorTransitiveOn l)
      ∧ (∀ l : List Value, (∀ v ∈ l, ∃ q, v = Value.Float q) →
          comparatorTransitiveOn l)
      ∧ (∀ l : List Value, (∀ v ∈ l, ∃ s, v = Value.String s) →
          comparatorTransitiveOn l) := by
  refine ⟨?_, length_sortValues, ?_, ?_, ?_, cmpInt_lt_iff, cmpRat_lt_iff,
    ?_, ?_, cmpString_lt_iff, ?_, ?_, ?_, ?_⟩
  · intro fuel e env s s₁ l _ h
    simp [evaluateNode, h]
  · intro l _
    exact sortValues_idem l
  · intro l _
    rw [show l.enum = l.enumFrom 0 from rfl, map_snd_sortTagged, enumFrom_map_snd']
  · intro l _
    exact pairwise_stab_sortTagged _ (pairwise_fst_lt_enumFrom l 0)
  · intro a q h1 h2
    show cmpRat (i64ToF64 a) q = .lt ↔ _
    rw [i64ToF64_eq_self a h1 h2]
    exact cmpRat_lt_iff _ _
  · intro p b h1 h2
    show cmpRat p (i64ToF64 b) = .lt ↔ _
    rw [i64ToF64_eq_self b h1 h2]
    exact cmpRat_lt_iff _ _
  · intro a b h1 h2
    cases a <;> cases b <;> simp_all [cmpValue, Value.isNumber, Value.isStringValue]
  · intro l h x hx y hy z hz hxy hyz
    obtain ⟨nx, rfl⟩ := h x hx
    obtain ⟨ny, rfl⟩ := h y hy
    obtain ⟨nz, rfl⟩ := h z hz
    exact (cmpInt_ne_gt_iff nx nz).mpr
      (le_trans ((cmpInt_ne_gt_iff nx ny).mp hxy) ((cmpInt_ne_gt_iff ny nz).mp hyz))
  · intro l h x hx y hy z hz hxy hyz
    obtain ⟨qx, rfl⟩ := h x hx
    obtain ⟨qy, rfl⟩ := h y hy
    obtain ⟨qz, rfl⟩ := h z hz
    exact (cmpRat_ne_gt_iff qx qz).mpr
      (le_trans ((cmpRat_ne_gt_iff qx qy).mp hxy) ((cmpRat_ne_gt_iff qy qz).mp hyz))
  · intro l h x hx y hy z hz hxy hyz
    obtain ⟨sx, rfl⟩ := h x hx
    obtain ⟨sy, rfl⟩ := h y hy
    obtain ⟨sz, rfl⟩ := h z hz
    exact (cmpString_ne_gt_iff sx sz).mpr
      (le_trans ((cmpString_ne_gt_iff sx sy).mp hxy) ((cmpString_ne_gt_iff sy sz).mp hyz))

/-- Witness for C9 (amended): `SORT([2, 1])` through the evaluator on an
all-integer (hence comparator-transitive) list, idempotence there, and the
exact-regime mixed comparison at `3` versus `3.5`. -/
theorem sort_properties_on_transitive_lists_witness :
    evaluateNode 5 (.Sort (.List [.Integer 2, .Integer 1])) 0 initialStore
        = (initialStore, .ok (.List (sortValues [.Integer 2, .Integer 1])))
      ∧ sortValues (sortValues [.Integer 2, .Integer 1])
        = sortValues [.Integer 2, .Integer 1]
      ∧ (cmpValue (.Integer 3) (.Float (7 / 2)) = .lt ↔ ((3 : Int) : ℚ) < 7 / 2) :=
  ⟨sort_properties_on_transitive_lists.1 4 (.List [.Integer 2, .Integer 1]) 0
      initialStore initialStore [.Integer 2, .Integer 1] (by decide) (by rfl),
   sort_properties_on_transitive_lists.2.2.1 [.Integer 2, .Integer 1] (by decide),
   sort_properties_on_transitive_lists.2.2.2.2.2.2.2.1 3 (7 / 2)
      (by decide) (by decide)⟩
